import Mathlib

/-!
Shallow embedding of `src/teacher_project/main.py` (Teacher Daily Log).

Strings are modelled as `List Char`.  Python's `re` patterns used by the
program are embedded as dedicated scanning matchers over `List Char` that
mimic `re.findall` / `re.search` semantics (leftmost non-overlapping
matches, scanning position by position).  All alternations in the
program's patterns have branches with distinct first characters, and all
adjacent starred character classes are disjoint, so a deterministic
greedy matcher is faithful to Python's backtracking engine; the only
bounded quantifier, `\d{1,2}` followed by `:` or at pattern end, is
implemented with its one-step backtracking explicitly.

Character classes follow Python's ASCII behaviour (`\w` as
alphanumeric-or-underscore, `\s` as space/tab/newline/CR/VT/FF); the
embedding models ASCII text, which is all the program's patterns target.

`dateutil.parser.parse` composed with `str(·.date())` is abstracted as a
parameter `dateParse : List Char → Option (List Char)` (it is an external
library), and `str(date.today())` as a parameter `today : List Char`.
The Gemini LLM call is abstracted as `List Char → Except (List Char) (List Char)`:
`.ok` is a successful reply's text, `.error` carries the text of a raised
exception.
-/

/-- ASCII lower-casing of one character, as Python `str.lower` acts on ASCII. -/
def asciiLower (c : Char) : Char :=
  if 'A' ≤ c && c ≤ 'Z' then Char.ofNat (c.toNat + 32) else c

/-- Python `text.lower()` on ASCII text. -/
def lowerStr (l : List Char) : List Char := l.map asciiLower

/-- Python regex `\s` (ASCII): space, tab, newline, CR, vertical tab, form feed. -/
def isPySpace (c : Char) : Bool :=
  c = ' ' || c = '\t' || c = '\n' || c = '\r' || c = Char.ofNat 11 || c = Char.ofNat 12

/-- Python regex `\w` (ASCII): letters, digits, underscore. -/
def isWordChar (c : Char) : Bool := c.isAlphanum || c = '_'

/-- Character class `[\w\s\-,]` of the date pattern. -/
def isDateChar (c : Char) : Bool := isWordChar c || isPySpace c || c = '-' || c = ','

/-- Python `str.strip()`: drop leading and trailing whitespace. -/
def stripChars (l : List Char) : List Char :=
  ((l.dropWhile isPySpace).reverse.dropWhile isPySpace).reverse

/-- Match a literal at the head of the input; return the rest on success. -/
def matchLit : List Char → List Char → Option (List Char)
  | [], l => some l
  | _ :: _, [] => none
  | p :: ps, c :: cs => if c = p then matchLit ps cs else none

/-- Case-insensitive literal match (pattern given in lower case), for the
`re.IGNORECASE` date pattern. -/
def matchLitCI : List Char → List Char → Option (List Char)
  | [], l => some l
  | _ :: _, [] => none
  | p :: ps, c :: cs => if asciiLower c = p then matchLitCI ps cs else none

/-- Try the keyword alternatives in pattern order; return the length of the
matched keyword and the rest of the input.  In every pattern of the program
the alternatives start with distinct characters, so this is exactly
Python's alternation. -/
def matchKw : List (List Char) → List Char → Option (Nat × List Char)
  | [], _ => none
  | k :: ks, l =>
    match matchLit k l with
    | some r => some (k.length, r)
    | none => matchKw ks l

/-- Case-insensitive variant of `matchKw`. -/
def matchKwCI : List (List Char) → List Char → Option (Nat × List Char)
  | [], _ => none
  | k :: ks, l =>
    match matchLitCI k l with
    | some r => some (k.length, r)
    | none => matchKwCI ks l

/-- Match `\d{1,2}:\d{2}` at the head: greedily try two digits before the
colon, backtracking to one, exactly as Python's engine does.  Returns the
captured `HH:MM` text and the number of characters consumed. -/
def matchHHMM (l : List Char) : Option (List Char × Nat) :=
  match l with
  | a :: b :: c :: d :: e :: _ =>
    if a.isDigit && b.isDigit && c = ':' && d.isDigit && e.isDigit then
      some ([a, b, c, d, e], 5)
    else if a.isDigit && b = ':' && c.isDigit && d.isDigit then
      some ([a, b, c, d], 4)
    else none
  | [a, b, c, d] =>
    if a.isDigit && b = ':' && c.isDigit && d.isDigit then
      some ([a, b, c, d], 4)
    else none
  | _ => none

/-- Match `(?:for|on)\s+([\w\s\-,]+)` (with `re.IGNORECASE`) at the head of
the input; return the capture and the characters consumed by the whole
match. -/
def matchDateAt (l : List Char) : Option (List Char × Nat) :=
  match matchKwCI [('f' :: 'o' :: 'r' :: []), ('o' :: 'n' :: [])] l with
  | none => none
  | some (n, r1) =>
    let s1 := r1.takeWhile isPySpace
    if s1.length = 0 then none
    else
      let r2 := r1.dropWhile isPySpace
      let cap := r2.takeWhile isDateChar
      if cap.length = 0 then none
      else some (cap, n + s1.length + cap.length)

/-- Match `(?:kw1|kw2)\s+at\s+(\d{1,2}:\d{2})` at the head of the input
(the arrival and departure patterns); return the capture and the
characters consumed. -/
def matchTimeAt (kws : List (List Char)) (l : List Char) : Option (List Char × Nat) :=
  match matchKw kws l with
  | none => none
  | some (n, r1) =>
    let s1 := r1.takeWhile isPySpace
    if s1.length = 0 then none
    else
      match matchLit ('a' :: 't' :: []) (r1.dropWhile isPySpace) with
      | none => none
      | some r3 =>
        let s2 := r3.takeWhile isPySpace
        if s2.length = 0 then none
        else
          match matchHHMM (r3.dropWhile isPySpace) with
          | none => none
          | some (cap, k) => some (cap, n + s1.length + 2 + s2.length + k)

/-- Greedy `(\d{1,2})` at pattern end: up to two digits, at least one. -/
def takeDigits2 (l : List Char) : Option (List Char × Nat) :=
  match l with
  | [] => none
  | [a] => if a.isDigit then some ([a], 1) else none
  | a :: b :: _ =>
    if a.isDigit then
      if b.isDigit then some ([a, b], 2) else some ([a], 1)
    else none

/-- Match `name\s*[:]*\s*(\d{1,2})` (the marks pattern) at the head of the
input; return the capture and the characters consumed. -/
def matchMarkAt (name : List Char) (l : List Char) : Option (List Char × Nat) :=
  match matchLit name l with
  | none => none
  | some r1 =>
    let s1 := r1.takeWhile isPySpace
    let r2 := r1.dropWhile isPySpace
    let co := r2.takeWhile (fun c => c = ':')
    let r3 := r2.dropWhile (fun c => c = ':')
    let s2 := r3.takeWhile isPySpace
    let r4 := r3.dropWhile isPySpace
    match takeDigits2 r4 with
    | none => none
    | some (cap, k) => some (cap, name.length + s1.length + co.length + s2.length + k)

/-- Python `re.findall` driven by a head matcher, with structural fuel:
scan left to right, and on a match record its capture and resume after
the matched span (non-overlapping matches).  Every matcher of this file
consumes at least one character on success, so with fuel at least the
length of the input (as `findallWith` supplies) the fuel never runs out. -/
def findallGo (m : List Char → Option (List Char × Nat)) :
    Nat → List Char → List (List Char)
  | 0, _ => []
  | _, [] => []
  | fuel + 1, c :: tl =>
    match m (c :: tl) with
    | some (cap, k) => cap :: findallGo m fuel (tl.drop (k - 1))
    | none => findallGo m fuel tl

/-- Python `re.findall` driven by a head matcher. -/
def findallWith (m : List Char → Option (List Char × Nat)) (l : List Char) :
    List (List Char) :=
  findallGo m l.length l

/-- `re.findall(r"(?:for|on)\s+([\w\s\-,]+)", text, re.IGNORECASE)`. -/
def findallDates (text : List Char) : List (List Char) :=
  findallWith matchDateAt text

/-- `re.findall(r"(?:arrived|came)\s+at\s+(\d{1,2}:\d{2})", lower_text)`. -/
def findallArrival (lower : List Char) : List (List Char) :=
  findallWith (matchTimeAt
    [('a' :: 'r' :: 'r' :: 'i' :: 'v' :: 'e' :: 'd' :: []),
     ('c' :: 'a' :: 'm' :: 'e' :: [])]) lower

/-- `re.findall(r"(?:left|departed)\s+at\s+(\d{1,2}:\d{2})", lower_text)`. -/
def findallDeparture (lower : List Char) : List (List Char) :=
  findallWith (matchTimeAt
    [('l' :: 'e' :: 'f' :: 't' :: []),
     ('d' :: 'e' :: 'p' :: 'a' :: 'r' :: 't' :: 'e' :: 'd' :: [])]) lower

/-- `re.findall(rf"{child_name}\s*[:]*\s*(\d{1,2})", lower_text)`. -/
def findallMark (name : List Char) (lower : List Char) : List (List Char) :=
  findallWith (matchMarkAt name) lower

/-- Match `(?:studied|learned)\s+(.*)` at the head of the input, returning
the capture (`.` stops at a newline, `\s+` is greedy across whitespace). -/
def matchTopicsAt (l : List Char) : Option (List Char) :=
  match matchKw
    [('s' :: 't' :: 'u' :: 'd' :: 'i' :: 'e' :: 'd' :: []),
     ('l' :: 'e' :: 'a' :: 'r' :: 'n' :: 'e' :: 'd' :: [])] l with
  | none => none
  | some (_, r1) =>
    let s1 := r1.takeWhile isPySpace
    if s1.length = 0 then none
    else some ((r1.dropWhile isPySpace).takeWhile (fun c => c ≠ '\n'))

/-- `re.search(r"(?:studied|learned)\s+(.*)", lower_text)`: first matching
position wins. -/
def searchTopics : List Char → Option (List Char)
  | [] => none
  | c :: tl =>
    match matchTopicsAt (c :: tl) with
    | some cap => some cap
    | none => searchTopics tl

/-- Python `needle in haystack` substring test. -/
def containsSub (needle : List Char) : List Char → Bool
  | [] => needle.isEmpty
  | c :: tl => List.isPrefixOf needle (c :: tl) || containsSub needle tl

/-- The `ongoing_record` dictionary of the session state (also the shape of
each finalized record stored in `teacher_data`, which is a plain copy). -/
structure OngoingRecord where
  date_str : Option (List Char)
  arrival : Option (List Char)
  departure : Option (List Char)
  topics : Option (List Char)
  is_friday : Bool
  muhammad_marks : Option (List Char)
  abubakar_marks : Option (List Char)
  hafsa_marks : Option (List Char)
deriving DecidableEq, Repr

/-- The fully-empty record that initializes `ongoing_record` and to which
`finalize_record` resets it. -/
def emptyRecord : OngoingRecord :=
  { date_str := none, arrival := none, departure := none, topics := none,
    is_friday := false, muhammad_marks := none, abubakar_marks := none,
    hafsa_marks := none }

/-- The mutable session state touched by the functions modelled here:
`teacher_data`, `ongoing_record` and `missing_fields`. -/
structure AppState where
  teacher_data : List OngoingRecord
  ongoing_record : OngoingRecord
  missing_fields : List (List Char)
deriving DecidableEq, Repr

/-- `find_missing_fields` from the source: collect, in the fixed order of
the code, the names of the fields of the ongoing record that are `None`,
the three marks being examined only when `is_friday` is set. -/
def find_missing_fields (rec : OngoingRecord) : List (List Char) :=
  (if rec.date_str = none then [('d' :: 'a' :: 't' :: 'e' :: '_' :: 's' :: 't' :: 'r' :: [])] else []) ++
  (if rec.arrival = none then [('a' :: 'r' :: 'r' :: 'i' :: 'v' :: 'a' :: 'l' :: [])] else []) ++
  (if rec.departure = none then [('d' :: 'e' :: 'p' :: 'a' :: 'r' :: 't' :: 'u' :: 'r' :: 'e' :: [])] else []) ++
  (if rec.topics = none then [('t' :: 'o' :: 'p' :: 'i' :: 'c' :: 's' :: [])] else []) ++
  (if rec.is_friday then
    (if rec.muhammad_marks = none then [String.toList "muhammad_marks"] else []) ++
    (if rec.abubakar_marks = none then [String.toList "abubakar_marks"] else []) ++
    (if rec.hafsa_marks = none then [String.toList "hafsa_marks"] else [])
  else [])

/-- The `for d in possible_dates: try: ... break except: pass` loop of
section (a) of `parse_user_text`: the first candidate whose stripped text
the date library parses wins. -/
def firstParsedDate (dateParse : List Char → Option (List Char)) :
    List (List Char) → Option (List Char)
  | [] => none
  | d :: ds =>
    match dateParse (stripChars d) with
    | some x => some x
    | none => firstParsedDate dateParse ds

/-- Section (a) of `parse_user_text`: date detection with default-to-today. -/
def stepDate (dateParse : List Char → Option (List Char)) (today : List Char)
    (text : List Char) (rec : OngoingRecord) : OngoingRecord :=
  match firstParsedDate dateParse (findallDates text) with
  | some d => { rec with date_str := some d }
  | none => if rec.date_str = none then { rec with date_str := some today } else rec

/-- Section (b) of `parse_user_text`: the Friday flag. -/
def stepFriday (lower : List Char) (rec : OngoingRecord) : OngoingRecord :=
  if containsSub (String.toList "friday") lower then { rec with is_friday := true } else rec

/-- Section (c) of `parse_user_text`: arrival time, last match wins. -/
def stepArrival (lower : List Char) (rec : OngoingRecord) : OngoingRecord :=
  match (findallArrival lower).getLast? with
  | some a => { rec with arrival := some a }
  | none => rec

/-- Section (d) of `parse_user_text`: departure time, last match wins. -/
def stepDeparture (lower : List Char) (rec : OngoingRecord) : OngoingRecord :=
  match (findallDeparture lower).getLast? with
  | some d => { rec with departure := some d }
  | none => rec

/-- Section (e) of `parse_user_text`: topics, first `re.search` match,
stripped. -/
def stepTopics (lower : List Char) (rec : OngoingRecord) : OngoingRecord :=
  match searchTopics lower with
  | some t => { rec with topics := some (stripChars t) }
  | none => rec

/-- One mark update of section (f): `pattern[-1] if pattern else None`,
then `if mark:` (the captured text is never empty, so truthiness is
is-some). -/
def markUpdate (name : List Char) (lower : List Char)
    (old : Option (List Char)) : Option (List Char) :=
  match (findallMark name lower).getLast? with
  | some m => some m
  | none => old

/-- Section (f) of `parse_user_text`: marks, parsed only when the record's
`is_friday` is set (possibly by section (b) of the same call). -/
def stepMarks (lower : List Char) (rec : OngoingRecord) : OngoingRecord :=
  if rec.is_friday then
    { rec with
      muhammad_marks := markUpdate (String.toList "muhammad") lower rec.muhammad_marks,
      abubakar_marks := markUpdate (String.toList "abubakar") lower rec.abubakar_marks,
      hafsa_marks := markUpdate (String.toList "hafsa") lower rec.hafsa_marks }
  else rec

/-- `parse_user_text` from the source: sections (a) to (f) applied in
order to the ongoing record.  `dateParse` abstracts
`str(date_parser.parse(·).date())` and `today` abstracts
`str(date.today())`. -/
def parse_user_text (dateParse : List Char → Option (List Char))
    (today : List Char) (text : List Char) (rec : OngoingRecord) : OngoingRecord :=
  let lower := lowerStr text
  stepMarks lower (stepTopics lower (stepDeparture lower (stepArrival lower
    (stepFriday lower (stepDate dateParse today text rec)))))

/-- Current wall-clock data used by `check_reminder`: `now.hour` and
`str(now.date())`. -/
structure NowClock where
  hour : Nat
  today_str : List Char

/-- `check_reminder` from the source, as the signal it emits: `true` when
the warning is shown.  The stored records' `date_str` is compared with
today's date string. -/
def check_reminder (now : NowClock) (teacher_data : List OngoingRecord) : Bool :=
  if 18 ≤ now.hour then
    !(teacher_data.any (fun rec => rec.date_str = some now.today_str))
  else false

/-- Python `f"{x}"` of an optional string field: `None` renders as "None". -/
def showOptField : Option (List Char) → List Char
  | some s => s
  | none => String.toList "None"

/-- Python `f"{b}"` of a boolean. -/
def showBool : Bool → List Char
  | true => String.toList "True"
  | false => String.toList "False"

/-- The summary string built by `finalize_record`. -/
def buildSummary (rec : OngoingRecord) : List Char :=
  String.toList "Date: " ++ showOptField rec.date_str ++
  String.toList ", Arrival: " ++ showOptField rec.arrival ++
  String.toList ", Departure: " ++ showOptField rec.departure ++
  String.toList ", Topics: " ++ showOptField rec.topics ++
  String.toList ", isFriday: " ++ showBool rec.is_friday ++
  String.toList ", Muhammad: " ++ showOptField rec.muhammad_marks ++
  String.toList ", Abubakar: " ++ showOptField rec.abubakar_marks ++
  String.toList ", Hafsa: " ++ showOptField rec.hafsa_marks

/-- The prompt string sent to the LLM by `finalize_record`. -/
def buildPrompt (rec : OngoingRecord) : List Char :=
  String.toList "User gave teacher data:\n" ++ buildSummary rec ++
  String.toList "\nPlease reply acknowledging we've stored today's details."

/-- `finalize_record` from the source: append a copy of the ongoing record
to `teacher_data`, call the LLM on the prompt (an exception is caught and
embedded in the reply text), then reset `ongoing_record` to the empty
record and clear `missing_fields`.  Returns the new state and the
`gemini_reply` text shown to the user.  `llm` abstracts `llm.invoke`
(successful replies of both the `AIMessage` and the fallback `str(resp)`
branch are `.ok`; a raised exception `e` is `.error (str e)`). -/
def finalize_record (llm : List Char → Except (List Char) (List Char))
    (s : AppState) : AppState × List Char :=
  let r0 := s.ongoing_record
  let data' := s.teacher_data ++ [r0]
  let gemini_reply :=
    match llm (buildPrompt r0) with
    | Except.ok r => r
    | Except.error e => String.toList "Error calling Gemini: " ++ e
  ({ teacher_data := data', ongoing_record := emptyRecord, missing_fields := [] },
   gemini_reply)

/-- Date-parser stub on which every candidate fails (as `dateutil` raising
on each span). -/
def dpNone : List Char → Option (List Char) := fun _ => none

/-- Date-parser stub that parses exactly "January 10th". -/
def dpJan : List Char → Option (List Char) := fun s =>
  if s = String.toList "January 10th" then some (String.toList "2025-01-10") else none

/-- A concrete value of `str(date.today())` for witnesses. -/
def todayW : List Char := String.toList "2025-02-11"

/-- The scenario input of the specification. -/
def textC3 : List Char :=
  String.toList "Teacher arrived at 10:40, left at 12:00, studied AI for January 10th"

/-- Input containing "arrived at 10:40" followed by a later arrival match. -/
def textC4 : List Char := String.toList "arrived at 10:40 and came at 9:15"

/-- Input whose only arrival match is "ARRIVED at 10:40". -/
def textC4w : List Char := String.toList "Teacher ARRIVED at 10:40 today"

/-- Input with two arrival matches and two departure matches. -/
def textC5 : List Char :=
  String.toList "arrived at 10:40 came at 9:15 left at 1:00 departed at 2:30"

/-- A Friday input giving Muhammad's mark twice. -/
def textC8 : List Char :=
  String.toList "Friday Muhammad 7 muhammad: 19 Abubakar 15 Hafsa 20"

/-- A complete non-Friday record. -/
def recC1 : OngoingRecord :=
  { date_str := some (String.toList "2025-02-11"), arrival := some (String.toList "10:40"),
    departure := some (String.toList "12:00"), topics := some (String.toList "ai"),
    is_friday := false, muhammad_marks := none, abubakar_marks := none, hafsa_marks := none }

/-- An ongoing record that already has a date. -/
def recDated : OngoingRecord := { emptyRecord with date_str := some (String.toList "2025-02-10") }

/-- LLM stub that always raises. -/
def llmBoom : List Char → Except (List Char) (List Char) :=
  fun _ => Except.error (String.toList "boom")

/-- A concrete app state holding a complete ongoing record. -/
def stateC2 : AppState :=
  { teacher_data := [], ongoing_record := recC1, missing_fields := [] }

/-! Projection lemmas: each section of `parse_user_text` touches only its
own fields of the ongoing record. -/

@[simp] theorem stepDate_arrival (dp : List Char → Option (List Char))
    (today text : List Char) (rec : OngoingRecord) :
    (stepDate dp today text rec).arrival = rec.arrival := by
  unfold stepDate
  cases firstParsedDate dp (findallDates text) with
  | none => by_cases h : rec.date_str = none <;> simp [h]
  | some d => rfl

@[simp] theorem stepDate_departure (dp : List Char → Option (List Char))
    (today text : List Char) (rec : OngoingRecord) :
    (stepDate dp today text rec).departure = rec.departure := by
  unfold stepDate
  cases firstParsedDate dp (findallDates text) with
  | none => by_cases h : rec.date_str = none <;> simp [h]
  | some d => rfl

@[simp] theorem stepDate_topics (dp : List Char → Option (List Char))
    (today text : List Char) (rec : OngoingRecord) :
    (stepDate dp today text rec).topics = rec.topics := by
  unfold stepDate
  cases firstParsedDate dp (findallDates text) with
  | none => by_cases h : rec.date_str = none <;> simp [h]
  | some d => rfl

@[simp] theorem stepDate_is_friday (dp : List Char → Option (List Char))
    (today text : List Char) (rec : OngoingRecord) :
    (stepDate dp today text rec).is_friday = rec.is_friday := by
  unfold stepDate
  cases firstParsedDate dp (findallDates text) with
  | none => by_cases h : rec.date_str = none <;> simp [h]
  | some d => rfl

@[simp] theorem stepDate_muhammad (dp : List Char → Option (List Char))
    (today text : List Char) (rec : OngoingRecord) :
    (stepDate dp today text rec).muhammad_marks = rec.muhammad_marks := by
  unfold stepDate
  cases firstParsedDate dp (findallDates text) with
  | none => by_cases h : rec.date_str = none <;> simp [h]
  | some d => rfl

@[simp] theorem stepDate_abubakar (dp : List Char → Option (List Char))
    (today text : List Char) (rec : OngoingRecord) :
    (stepDate dp today text rec).abubakar_marks = rec.abubakar_marks := by
  unfold stepDate
  cases firstParsedDate dp (findallDates text) with
  | none => by_cases h : rec.date_str = none <;> simp [h]
  | some d => rfl

@[simp] theorem stepDate_hafsa (dp : List Char → Option (List Char))
    (today text : List Char) (rec : OngoingRecord) :
    (stepDate dp today text rec).hafsa_marks = rec.hafsa_marks := by
  unfold stepDate
  cases firstParsedDate dp (findallDates text) with
  | none => by_cases h : rec.date_str = none <;> simp [h]
  | some d => rfl

theorem stepDate_date_str (dp : List Char → Option (List Char))
    (today text : List Char) (rec : OngoingRecord) :
    (stepDate dp today text rec).date_str =
      match firstParsedDate dp (findallDates text) with
      | some d => some d
      | none => if rec.date_str = none then some today else rec.date_str := by
  unfold stepDate
  cases firstParsedDate dp (findallDates text) with
  | none => by_cases h : rec.date_str = none <;> simp [h]
  | some d => rfl

@[simp] theorem stepFriday_date_str (lower : List Char) (rec : OngoingRecord) :
    (stepFriday lower rec).date_str = rec.date_str := by
  unfold stepFriday; split <;> rfl

@[simp] theorem stepFriday_arrival (lower : List Char) (rec : OngoingRecord) :
    (stepFriday lower rec).arrival = rec.arrival := by
  unfold stepFriday; split <;> rfl

@[simp] theorem stepFriday_departure (lower : List Char) (rec : OngoingRecord) :
    (stepFriday lower rec).departure = rec.departure := by
  unfold stepFriday; split <;> rfl

@[simp] theorem stepFriday_topics (lower : List Char) (rec : OngoingRecord) :
    (stepFriday lower rec).topics = rec.topics := by
  unfold stepFriday; split <;> rfl

@[simp] theorem stepFriday_muhammad (lower : List Char) (rec : OngoingRecord) :
    (stepFriday lower rec).muhammad_marks = rec.muhammad_marks := by
  unfold stepFriday; split <;> rfl

@[simp] theorem stepFriday_abubakar (lower : List Char) (rec : OngoingRecord) :
    (stepFriday lower rec).abubakar_marks = rec.abubakar_marks := by
  unfold stepFriday; split <;> rfl

@[simp] theorem stepFriday_hafsa (lower : List Char) (rec : OngoingRecord) :
    (stepFriday lower rec).hafsa_marks = rec.hafsa_marks := by
  unfold stepFriday; split <;> rfl

theorem stepFriday_is_friday (lower : List Char) (rec : OngoingRecord) :
    (stepFriday lower rec).is_friday =
      (rec.is_friday || containsSub (String.toList "friday") lower) := by
  unfold stepFriday
  split <;> simp_all

@[simp] theorem stepArrival_date_str (lower : List Char) (rec : OngoingRecord) :
    (stepArrival lower rec).date_str = rec.date_str := by
  unfold stepArrival; split <;> rfl

@[simp] theorem stepArrival_departure (lower : List Char) (rec : OngoingRecord) :
    (stepArrival lower rec).departure = rec.departure := by
  unfold stepArrival; split <;> rfl

@[simp] theorem stepArrival_topics (lower : List Char) (rec : OngoingRecord) :
    (stepArrival lower rec).topics = rec.topics := by
  unfold stepArrival; split <;> rfl

@[simp] theorem stepArrival_is_friday (lower : List Char) (rec : OngoingRecord) :
    (stepArrival lower rec).is_friday = rec.is_friday := by
  unfold stepArrival; split <;> rfl

@[simp] theorem stepArrival_muhammad (lower : List Char) (rec : OngoingRecord) :
    (stepArrival lower rec).muhammad_marks = rec.muhammad_marks := by
  unfold stepArrival; split <;> rfl

@[simp] theorem stepArrival_abubakar (lower : List Char) (rec : OngoingRecord) :
    (stepArrival lower rec).abubakar_marks = rec.abubakar_marks := by
  unfold stepArrival; split <;> rfl

@[simp] theorem stepArrival_hafsa (lower : List Char) (rec : OngoingRecord) :
    (stepArrival lower rec).hafsa_marks = rec.hafsa_marks := by
  unfold stepArrival; split <;> rfl

theorem stepArrival_arrival (lower : List Char) (rec : OngoingRecord) :
    (stepArrival lower rec).arrival =
      match (findallArrival lower).getLast? with
      | some a => some a
      | none => rec.arrival := by
  unfold stepArrival; split <;> simp_all

@[simp] theorem stepDeparture_date_str (lower : List Char) (rec : OngoingRecord) :
    (stepDeparture lower rec).date_str = rec.date_str := by
  unfold stepDeparture; split <;> rfl

@[simp] theorem stepDeparture_arrival (lower : List Char) (rec : OngoingRecord) :
    (stepDeparture lower rec).arrival = rec.arrival := by
  unfold stepDeparture; split <;> rfl

@[simp] theorem stepDeparture_topics (lower : List Char) (rec : OngoingRecord) :
    (stepDeparture lower rec).topics = rec.topics := by
  unfold stepDeparture; split <;> rfl

@[simp] theorem stepDeparture_is_friday (lower : List Char) (rec : OngoingRecord) :
    (stepDeparture lower rec).is_friday = rec.is_friday := by
  unfold stepDeparture; split <;> rfl

@[simp] theorem stepDeparture_muhammad (lower : List Char) (rec : OngoingRecord) :
    (stepDeparture lower rec).muhammad_marks = rec.muhammad_marks := by
  unfold stepDeparture; split <;> rfl

@[simp] theorem stepDeparture_abubakar (lower : List Char) (rec : OngoingRecord) :
    (stepDeparture lower rec).abubakar_marks = rec.abubakar_marks := by
  unfold stepDeparture; split <;> rfl

@[simp] theorem stepDeparture_hafsa (lower : List Char) (rec : OngoingRecord) :
    (stepDeparture lower rec).hafsa_marks = rec.hafsa_marks := by
  unfold stepDeparture; split <;> rfl

theorem stepDeparture_departure (lower : List Char) (rec : OngoingRecord) :
    (stepDeparture lower rec).departure =
      match (findallDeparture lower).getLast? with
      | some d => some d
      | none => rec.departure := by
  unfold stepDeparture; split <;> simp_all

@[simp] theorem stepTopics_date_str (lower : List Char) (rec : OngoingRecord) :
    (stepTopics lower rec).date_str = rec.date_str := by
  unfold stepTopics; split <;> rfl

@[simp] theorem stepTopics_arrival (lower : List Char) (rec : OngoingRecord) :
    (stepTopics lower rec).arrival = rec.arrival := by
  unfold stepTopics; split <;> rfl

@[simp] theorem stepTopics_departure (lower : List Char) (rec : OngoingRecord) :
    (stepTopics lower rec).departure = rec.departure := by
  unfold stepTopics; split <;> rfl

@[simp] theorem stepTopics_is_friday (lower : List Char) (rec : OngoingRecord) :
    (stepTopics lower rec).is_friday = rec.is_friday := by
  unfold stepTopics; split <;> rfl

@[simp] theorem stepTopics_muhammad (lower : List Char) (rec : OngoingRecord) :
    (stepTopics lower rec).muhammad_marks = rec.muhammad_marks := by
  unfold stepTopics; split <;> rfl

@[simp] theorem stepTopics_abubakar (lower : List Char) (rec : OngoingRecord) :
    (stepTopics lower rec).abubakar_marks = rec.abubakar_marks := by
  unfold stepTopics; split <;> rfl

@[simp] theorem stepTopics_hafsa (lower : List Char) (rec : OngoingRecord) :
    (stepTopics lower rec).hafsa_marks = rec.hafsa_marks := by
  unfold stepTopics; split <;> rfl

theorem stepTopics_topics (lower : List Char) (rec : OngoingRecord) :
    (stepTopics lower rec).topics =
      match searchTopics lower with
      | some t => some (stripChars t)
      | none => rec.topics := by
  unfold stepTopics; split <;> simp_all

@[simp] theorem stepMarks_date_str (lower : List Char) (rec : OngoingRecord) :
    (stepMarks lower rec).date_str = rec.date_str := by
  unfold stepMarks; split <;> rfl

@[simp] theorem stepMarks_arrival (lower : List Char) (rec : OngoingRecord) :
    (stepMarks lower rec).arrival = rec.arrival := by
  unfold stepMarks; split <;> rfl

@[simp] theorem stepMarks_departure (lower : List Char) (rec : OngoingRecord) :
    (stepMarks lower rec).departure = rec.departure := by
  unfold stepMarks; split <;> rfl

@[simp] theorem stepMarks_topics (lower : List Char) (rec : OngoingRecord) :
    (stepMarks lower rec).topics = rec.topics := by
  unfold stepMarks; split <;> rfl

@[simp] theorem stepMarks_is_friday (lower : List Char) (rec : OngoingRecord) :
    (stepMarks lower rec).is_friday = rec.is_friday := by
  unfold stepMarks; split <;> rfl

theorem stepMarks_muhammad (lower : List Char) (rec : OngoingRecord) :
    (stepMarks lower rec).muhammad_marks =
      if rec.is_friday then markUpdate (String.toList "muhammad") lower rec.muhammad_marks
      else rec.muhammad_marks := by
  unfold stepMarks; by_cases h : rec.is_friday <;> simp [h]

theorem stepMarks_abubakar (lower : List Char) (rec : OngoingRecord) :
    (stepMarks lower rec).abubakar_marks =
      if rec.is_friday then markUpdate (String.toList "abubakar") lower rec.abubakar_marks
      else rec.abubakar_marks := by
  unfold stepMarks; by_cases h : rec.is_friday <;> simp [h]

theorem stepMarks_hafsa (lower : List Char) (rec : OngoingRecord) :
    (stepMarks lower rec).hafsa_marks =
      if rec.is_friday then markUpdate (String.toList "hafsa") lower rec.hafsa_marks
      else rec.hafsa_marks := by
  unfold stepMarks; by_cases h : rec.is_friday <;> simp [h]

/-! Field equations of `parse_user_text` as a whole. -/

theorem parse_user_text_date_str (dp : List Char → Option (List Char))
    (today text : List Char) (rec : OngoingRecord) :
    (parse_user_text dp today text rec).date_str =
      match firstParsedDate dp (findallDates text) with
      | some d => some d
      | none => if rec.date_str = none then some today else rec.date_str := by
  unfold parse_user_text
  simp [stepDate_date_str]

theorem parse_user_text_arrival (dp : List Char → Option (List Char))
    (today text : List Char) (rec : OngoingRecord) :
    (parse_user_text dp today text rec).arrival =
      match (findallArrival (lowerStr text)).getLast? with
      | some a => some a
      | none => rec.arrival := by
  unfold parse_user_text
  simp [stepArrival_arrival]

theorem parse_user_text_departure (dp : List Char → Option (List Char))
    (today text : List Char) (rec : OngoingRecord) :
    (parse_user_text dp today text rec).departure =
      match (findallDeparture (lowerStr text)).getLast? with
      | some d => some d
      | none => rec.departure := by
  unfold parse_user_text
  simp [stepDeparture_departure]

theorem parse_user_text_topics (dp : List Char → Option (List Char))
    (today text : List Char) (rec : OngoingRecord) :
    (parse_user_text dp today text rec).topics =
      match searchTopics (lowerStr text) with
      | some t => some (stripChars t)
      | none => rec.topics := by
  unfold parse_user_text
  simp [stepTopics_topics]

theorem parse_user_text_is_friday (dp : List Char → Option (List Char))
    (today text : List Char) (rec : OngoingRecord) :
    (parse_user_text dp today text rec).is_friday =
      (rec.is_friday || containsSub (String.toList "friday") (lowerStr text)) := by
  unfold parse_user_text
  simp [stepFriday_is_friday]

theorem parse_user_text_muhammad (dp : List Char → Option (List Char))
    (today text : List Char) (rec : OngoingRecord) :
    (parse_user_text dp today text rec).muhammad_marks =
      if rec.is_friday || containsSub (String.toList "friday") (lowerStr text) then
        markUpdate (String.toList "muhammad") (lowerStr text) rec.muhammad_marks
      else rec.muhammad_marks := by
  unfold parse_user_text
  simp [stepMarks_muhammad, stepFriday_is_friday]

theorem parse_user_text_abubakar (dp : List Char → Option (List Char))
    (today text : List Char) (rec : OngoingRecord) :
    (parse_user_text dp today text rec).abubakar_marks =
      if rec.is_friday || containsSub (String.toList "friday") (lowerStr text) then
        markUpdate (String.toList "abubakar") (lowerStr text) rec.abubakar_marks
      else rec.abubakar_marks := by
  unfold parse_user_text
  simp [stepMarks_abubakar, stepFriday_is_friday]

theorem parse_user_text_hafsa (dp : List Char → Option (List Char))
    (today text : List Char) (rec : OngoingRecord) :
    (parse_user_text dp today text rec).hafsa_marks =
      if rec.is_friday || containsSub (String.toList "friday") (lowerStr text) then
        markUpdate (String.toList "hafsa") (lowerStr text) rec.hafsa_marks
      else rec.hafsa_marks := by
  unfold parse_user_text
  simp [stepMarks_hafsa, stepFriday_is_friday]

/-- The `for`-loop of section (a) is `List.findSome?` over the stripped
candidates. -/
theorem firstParsedDate_eq_findSome (dp : List Char → Option (List Char))
    (ds : List (List Char)) :
    firstParsedDate dp ds = ds.findSome? (fun c => dp (stripChars c)) := by
  induction ds with
  | nil => rfl
  | cons d ds ih =>
    unfold firstParsedDate
    rw [List.findSome?_cons]
    cases dp (stripChars d) <;> simp [ih]

/-- Any record whose date is set yields a missing-fields list without
"date_str". -/
theorem find_missing_fields_no_date_str (rec : OngoingRecord)
    (h : rec.date_str ≠ none) :
    (find_missing_fields rec).contains (String.toList "date_str") = false := by
  obtain ⟨ds, ar, de, tp, fr, x1, x2, x3⟩ := rec
  cases ds with
  | none => exact absurd rfl h
  | some d =>
    cases ar <;> cases de <;> cases tp <;> cases fr <;>
      cases x1 <;> cases x2 <;> cases x3 <;> simp [find_missing_fields]

/-- C1: the missing-fields computation returns the empty list exactly when
date, arrival, departure and topics are all set and, if the Friday flag is
true, all three marks are also set; when the Friday flag is false the marks
are irrelevant to the result. -/
theorem find_missing_fields_empty_iff (rec : OngoingRecord) :
    (find_missing_fields rec = [] ↔
      (rec.date_str ≠ none ∧ rec.arrival ≠ none ∧ rec.departure ≠ none ∧
       rec.topics ≠ none ∧
       (rec.is_friday = true →
         rec.muhammad_marks ≠ none ∧ rec.abubakar_marks ≠ none ∧
         rec.hafsa_marks ≠ none))) ∧
    (rec.is_friday = false → ∀ m1 m2 m3,
      find_missing_fields
        { rec with muhammad_marks := m1, abubakar_marks := m2, hafsa_marks := m3 } =
        find_missing_fields rec) := by
  obtain ⟨ds, ar, de, tp, fr, x1, x2, x3⟩ := rec
  constructor
  · cases ds <;> cases ar <;> cases de <;> cases tp <;> cases fr <;>
      cases x1 <;> cases x2 <;> cases x3 <;> simp [find_missing_fields]
  · intro hf m1 m2 m3
    simp only at hf
    subst hf
    simp [find_missing_fields]

/-- Witness for C1 at a concrete complete non-Friday record. -/
theorem find_missing_fields_empty_iff_witness :
    find_missing_fields recC1 = [] ∧
    find_missing_fields
      { recC1 with
          muhammad_marks := some (String.toList "99"),
          abubakar_marks := none,
          hafsa_marks := none } = find_missing_fields recC1 :=
  ⟨(find_missing_fields_empty_iff recC1).1.mpr (by decide),
   (find_missing_fields_empty_iff recC1).2 (by decide) (some (String.toList "99")) none none⟩

/-- C2: finalization appends exactly one copy of the ongoing record to the
store and resets the ongoing record to the fully-empty state, whatever the
LLM call does; a raised LLM exception is embedded in the reply text rather
than propagated. -/
theorem finalize_record_spec (llm : List Char → Except (List Char) (List Char))
    (s : AppState) :
    (finalize_record llm s).1.teacher_data = s.teacher_data ++ [s.ongoing_record] ∧
    (finalize_record llm s).1.ongoing_record = emptyRecord ∧
    (∀ e, llm (buildPrompt s.ongoing_record) = Except.error e →
      (finalize_record llm s).2 = String.toList "Error calling Gemini: " ++ e) := by
  refine ⟨rfl, rfl, fun e he => ?_⟩
  unfold finalize_record
  simp [he]

/-- Witness for C2 with an LLM stub that always raises. -/
theorem finalize_record_spec_witness :
    (finalize_record llmBoom stateC2).1.teacher_data =
      stateC2.teacher_data ++ [stateC2.ongoing_record] ∧
    (finalize_record llmBoom stateC2).1.ongoing_record = emptyRecord ∧
    (finalize_record llmBoom stateC2).2 =
      String.toList "Error calling Gemini: " ++ String.toList "boom" :=
  ⟨(finalize_record_spec llmBoom stateC2).1,
   (finalize_record_spec llmBoom stateC2).2.1,
   (finalize_record_spec llmBoom stateC2).2.2 (String.toList "boom") rfl⟩

/-- C3: date extraction tries the "for"/"on" candidate spans in order of
appearance; the first that parses is stored, overwriting any previous date
unconditionally; if none parses the date defaults to today when unset and
is left unchanged when already set. -/
theorem parse_user_text_date_extraction (dp : List Char → Option (List Char))
    (today text : List Char) (rec : OngoingRecord) :
    (∀ d, (findallDates text).findSome? (fun c => dp (stripChars c)) = some d →
      (parse_user_text dp today text rec).date_str = some d) ∧
    ((findallDates text).findSome? (fun c => dp (stripChars c)) = none →
      (rec.date_str = none → (parse_user_text dp today text rec).date_str = some today) ∧
      (∀ d0, rec.date_str = some d0 →
        (parse_user_text dp today text rec).date_str = some d0)) := by
  have hp := parse_user_text_date_str dp today text rec
  rw [firstParsedDate_eq_findSome] at hp
  refine ⟨fun d hd => ?_, fun hn => ⟨fun h0 => ?_, fun d0 h0 => ?_⟩⟩
  · rw [hp, hd]
  · rw [hp, hn]
    simp [h0]
  · rw [hp, hn]
    simp [h0]

/-- Witness for C3: a parsing candidate overwrites a stored date; with a
failing parser the date defaults to today when unset and is kept when set. -/
theorem parse_user_text_date_extraction_witness :
    (parse_user_text dpJan todayW textC3 recDated).date_str =
      some (String.toList "2025-01-10") ∧
    (parse_user_text dpNone todayW textC3 emptyRecord).date_str = some todayW ∧
    (parse_user_text dpNone todayW textC3 recDated).date_str =
      some (String.toList "2025-02-10") :=
  ⟨(parse_user_text_date_extraction dpJan todayW textC3 recDated).1
      (String.toList "2025-01-10") (by decide),
   ((parse_user_text_date_extraction dpNone todayW textC3 emptyRecord).2 (by decide)).1
      (by decide),
   ((parse_user_text_date_extraction dpNone todayW textC3 recDated).2 (by decide)).2
      (String.toList "2025-02-10") (by decide)⟩

/-- C4 counterexample: this input contains "arrived at 10:40", yet a later
arrival match wins and the stored arrival is "9:15", not "10:40". -/
theorem parse_user_text_arrival_1040_cex :
    containsSub (String.toList "arrived at 10:40") (lowerStr textC4) = true ∧
    (parse_user_text dpNone todayW textC4 emptyRecord).arrival =
      some (String.toList "9:15") ∧
    decide (some (String.toList "9:15") = some (String.toList "10:40")) = false :=
  ⟨by decide, by decide, by decide⟩

/-- C4 (amended): for all input text whose last arrival-time match captures
"10:40" — in particular text containing "arrived at 10:40" in any letter
case with no later arrival-time match — the extractor sets arrival to
"10:40". -/
theorem parse_user_text_arrival_1040 (dp : List Char → Option (List Char))
    (today text : List Char) (rec : OngoingRecord)
    (h : (findallArrival (lowerStr text)).getLast? = some (String.toList "10:40")) :
    (parse_user_text dp today text rec).arrival = some (String.toList "10:40") := by
  rw [parse_user_text_arrival, h]

/-- Witness for C4 (amended) on mixed-case input. -/
theorem parse_user_text_arrival_1040_witness :
    (parse_user_text dpNone todayW textC4w emptyRecord).arrival =
      some (String.toList "10:40") :=
  parse_user_text_arrival_1040 dpNone todayW textC4w emptyRecord (by decide)

/-- C5: with several arrival or departure matches the last one in reading
order is stored, as the raw digit-colon-digit capture without further time
validation ("99:99" is accepted as-is). -/
theorem parse_user_text_time_last (dp : List Char → Option (List Char))
    (today text : List Char) (rec : OngoingRecord) :
    (∀ a, (findallArrival (lowerStr text)).getLast? = some a →
      (parse_user_text dp today text rec).arrival = some a) ∧
    (∀ d, (findallDeparture (lowerStr text)).getLast? = some d →
      (parse_user_text dp today text rec).departure = some d) ∧
    (parse_user_text dpNone todayW (String.toList "came at 99:99") emptyRecord).arrival =
      some (String.toList "99:99") := by
  refine ⟨fun a ha => ?_, fun d hd => ?_, by decide⟩
  · rw [parse_user_text_arrival, ha]
  · rw [parse_user_text_departure, hd]

/-- Witness for C5 on input with two arrival and two departure matches. -/
theorem parse_user_text_time_last_witness :
    (parse_user_text dpNone todayW textC5 emptyRecord).arrival =
      some (String.toList "9:15") ∧
    (parse_user_text dpNone todayW textC5 emptyRecord).departure =
      some (String.toList "2:30") :=
  ⟨(parse_user_text_time_last dpNone todayW textC5 emptyRecord).1
      (String.toList "9:15") (by decide),
   (parse_user_text_time_last dpNone todayW textC5 emptyRecord).2.1
      (String.toList "2:30") (by decide)⟩

/-- C6: the Friday flag is one-directional: the extractor sets it true
exactly when the flag was already true or the lower-cased text contains
"friday", so once true it is never cleared. -/
theorem parse_user_text_friday_sticky (dp : List Char → Option (List Char))
    (today text : List Char) (rec : OngoingRecord) :
    (rec.is_friday = true → (parse_user_text dp today text rec).is_friday = true) ∧
    (parse_user_text dp today text rec).is_friday =
      (rec.is_friday || containsSub (String.toList "friday") (lowerStr text)) := by
  rw [parse_user_text_is_friday]
  exact ⟨fun h => by simp [h], rfl⟩

/-- Witness for C6: a true flag survives text lacking "friday". -/
theorem parse_user_text_friday_sticky_witness :
    (parse_user_text dpNone todayW (String.toList "no marker here")
      { emptyRecord with is_friday := true }).is_friday = true :=
  (parse_user_text_friday_sticky dpNone todayW (String.toList "no marker here")
    { emptyRecord with is_friday := true }).1 rfl

/-- C7: on the scenario input applied to an empty record, extraction yields
arrival "10:40", departure "12:00" and topics "ai for january 10th"
(the lower-cased remainder after "studied", date-bearing suffix included);
only the first "studied"/"learned" match feeds the topics. -/
theorem parse_user_text_scenario (dp : List Char → Option (List Char))
    (today : List Char) :
    (parse_user_text dp today textC3 emptyRecord).arrival =
      some (String.toList "10:40") ∧
    (parse_user_text dp today textC3 emptyRecord).departure =
      some (String.toList "12:00") ∧
    (parse_user_text dp today textC3 emptyRecord).topics =
      some (String.toList "ai for january 10th") ∧
    (parse_user_text dp today (String.toList "studied x and learned y")
      emptyRecord).topics = some (String.toList "x and learned y") := by
  refine ⟨?_, ?_, ?_, ?_⟩
  · rw [parse_user_text_arrival]
    decide
  · rw [parse_user_text_departure]
    decide
  · rw [parse_user_text_topics]
    decide
  · rw [parse_user_text_topics]
    decide

/-- C8: marks are extracted only when the record's Friday flag is true
(possibly set in the same call); each child's stored value is the last
name-digits match, a one-or-two-digit string stored without any 0–20 range
check ("99" is stored as-is). -/
theorem parse_user_text_marks_spec (dp : List Char → Option (List Char))
    (today text : List Char) (rec : OngoingRecord) :
    ((rec.is_friday || containsSub (String.toList "friday") (lowerStr text)) = false →
      (parse_user_text dp today text rec).muhammad_marks = rec.muhammad_marks ∧
      (parse_user_text dp today text rec).abubakar_marks = rec.abubakar_marks ∧
      (parse_user_text dp today text rec).hafsa_marks = rec.hafsa_marks) ∧
    ((rec.is_friday || containsSub (String.toList "friday") (lowerStr text)) = true →
      (parse_user_text dp today text rec).muhammad_marks =
        markUpdate (String.toList "muhammad") (lowerStr text) rec.muhammad_marks ∧
      (parse_user_text dp today text rec).abubakar_marks =
        markUpdate (String.toList "abubakar") (lowerStr text) rec.abubakar_marks ∧
      (parse_user_text dp today text rec).hafsa_marks =
        markUpdate (String.toList "hafsa") (lowerStr text) rec.hafsa_marks) ∧
    (parse_user_text dpNone todayW (String.toList "friday muhammad 99")
      emptyRecord).muhammad_marks = some (String.toList "99") := by
  refine ⟨fun h => ⟨?_, ?_, ?_⟩, fun h => ⟨?_, ?_, ?_⟩, by decide⟩
  · rw [parse_user_text_muhammad, h]
    simp
  · rw [parse_user_text_abubakar, h]
    simp
  · rw [parse_user_text_hafsa, h]
    simp
  · rw [parse_user_text_muhammad, h]
    simp
  · rw [parse_user_text_abubakar, h]
    simp
  · rw [parse_user_text_hafsa, h]
    simp

/-- Witness for C8: no Friday flag leaves marks untouched; on a Friday
input the last of two Muhammad matches is stored. -/
theorem parse_user_text_marks_spec_witness :
    (parse_user_text dpNone todayW (String.toList "muhammad 5")
      emptyRecord).muhammad_marks = none ∧
    (parse_user_text dpNone todayW textC8 emptyRecord).muhammad_marks =
      some (String.toList "19") :=
  ⟨((parse_user_text_marks_spec dpNone todayW (String.toList "muhammad 5")
      emptyRecord).1 (by decide)).1,
   by
    have h := ((parse_user_text_marks_spec dpNone todayW textC8 emptyRecord).2.1
      (by decide)).1
    rw [h]
    decide⟩

/-- C9: the reminder signal is emitted if and only if the hour is at least
18 and no stored record's date equals today's date string; below hour 18 it
is never emitted, whatever the store holds. -/
theorem check_reminder_spec (now : NowClock) (data : List OngoingRecord) :
    (check_reminder now data = true ↔
      (18 ≤ now.hour ∧ ∀ r ∈ data, r.date_str ≠ some now.today_str)) ∧
    (now.hour < 18 → check_reminder now data = false) := by
  constructor
  · unfold check_reminder
    by_cases h : 18 ≤ now.hour <;> simp [h, List.any_eq_true]
  · intro h
    unfold check_reminder
    simp [Nat.not_le.mpr h]

/-- Witness for C9: at hour 17 the signal is off even though the store has
no record for today. -/
theorem check_reminder_spec_witness :
    check_reminder { hour := 17, today_str := todayW } [] = false :=
  (check_reminder_spec { hour := 17, today_str := todayW } []).2 (by decide)

/-- C10: after every extractor call the date field is set, so the
missing-fields list computed afterwards never contains "date_str". -/
theorem parse_user_text_date_always_set (dp : List Char → Option (List Char))
    (today text : List Char) (rec : OngoingRecord) :
    (parse_user_text dp today text rec).date_str.isSome = true ∧
    (find_missing_fields (parse_user_text dp today text rec)).contains
      (String.toList "date_str") = false := by
  have hd : (parse_user_text dp today text rec).date_str.isSome = true := by
    rw [parse_user_text_date_str]
    cases h : firstParsedDate dp (findallDates text) with
    | some d => rfl
    | none =>
      by_cases h0 : rec.date_str = none <;>
        simp [h0, Option.isSome_iff_ne_none]
  exact ⟨hd, find_missing_fields_no_date_str _ (Option.ne_none_iff_isSome.mpr hd)⟩
